import Mathlib

/-!
Verification development for the game-gateway task orchestration core.

The definitions below are shallow embeddings, translated from the Python
sources of the repository:

  * `src/src/mcp_server/core/state_manager.py` and
    `src/src/mcp_server/models/managed_task_state.py`
    (the graph engine: StateManager with its three LangGraph nodes and the
    in-memory checkpointer),
  * `src/src/toolchains/base_toolchain_bridge.py`
    (BaseToolchainBridge: FIFO queue plus single worker thread),
  * `src/.rooroo/tasks/ROO-SUB_PLAN_20250518-170411_S005/retro_diffusion_integration.py`
    (RetroDiffusionToolchainBridge: result cache, per-submit worker threads,
    parameter validation and canonical cache keys),
  * `src/src/protocols/advanced_collaboration_protocols.py`
    (CollaborationManager and AgentEventBus).

Python dynamic typing is modelled by the small value type `Val`
(dicts as association lists, strings, None); operations that can raise
in Python (attribute access such as `.get` on a non-dict, subscripting)
return `Except PyErr`.  Thread scheduling for the retro-diffusion bridge
is modelled by an explicit schedule of atomic actions.
-/

/-- Errors a modelled Python expression can raise. -/
inductive PyErr
  | attributeError
  | typeError
  | keyError
deriving DecidableEq, Repr

/-!
A Python value as it flows through the state manager: None, a string, or a
dict with string keys in insertion order (`ValEntries` is the entry list,
a mutual inductive so that equality is structurally recursive).
-/
mutual
inductive Val
  | vnone
  | vstr (s : String)
  | vdict (entries : ValEntries)
deriving Repr
inductive ValEntries
  | enil
  | econs (k : String) (v : Val) (rest : ValEntries)
deriving Repr
end

/-- Build a dict value from a key-value list. -/
def dictV (l : List (String × Val)) : Val :=
  Val.vdict (l.foldr (fun p r => ValEntries.econs p.1 p.2 r) .enil)

/-!
Structural equality of `Val`s, mirroring Python `==` on these values.
-/
mutual
def valBeq : Val → Val → Bool
  | .vnone, .vnone => true
  | .vstr a, .vstr b => a == b
  | .vdict a, .vdict b => entsBeq a b
  | _, _ => false
def entsBeq : ValEntries → ValEntries → Bool
  | .enil, .enil => true
  | .econs k1 v1 r1, .econs k2 v2 r2 => k1 == k2 && valBeq v1 v2 && entsBeq r1 r2
  | _, _ => false
end

/-- Is the entry list empty? -/
def entsIsEmpty : ValEntries → Bool
  | .enil => true
  | .econs _ _ _ => false

/-- Python truthiness of a `Val` (None and empty containers are falsy). -/
def pythonTruthy : Val → Bool
  | .vnone => false
  | .vstr s => !s.isEmpty
  | .vdict es => !entsIsEmpty es

/-- Python `a or b`. -/
def pyOr (a b : Val) : Val :=
  if pythonTruthy a then a else b

/-- First value bound to `k` in a dict entry list. -/
def assocLookup (es : ValEntries) (k : String) : Option Val :=
  match es with
  | .enil => none
  | .econs k1 v1 rest => if k1 = k then some v1 else assocLookup rest k

/-- Does the entry list bind `k`? -/
def entsHasKey (es : ValEntries) (k : String) : Bool :=
  match es with
  | .enil => false
  | .econs k1 _ rest => k1 == k || entsHasKey rest k

/-- Python `v.get(k, default)`: returns the entry or the default on a dict,
raises AttributeError on any non-dict value. -/
def dictGet (v : Val) (k : String) (default : Val) : Except PyErr Val :=
  match v with
  | .vdict es => .ok ((assocLookup es k).getD default)
  | _ => .error .attributeError

/-- Python `v[k]` on our values: KeyError if the key is missing,
TypeError on None or a string subscripted by a string key. -/
def dictIndex (v : Val) (k : String) : Except PyErr Val :=
  match v with
  | .vdict es =>
    match assocLookup es k with
    | some x => .ok x
    | none => .error .keyError
  | _ => .error .typeError

/-- Does the character list `hay` start with `needle`? -/
def chrStarts : List Char → List Char → Bool
  | [], _ => true
  | _ :: _, [] => false
  | a :: as, b :: bs => a == b && chrStarts as bs

/-- Substring test on character lists. -/
def chrHasSub (needle : List Char) : List Char → Bool
  | [] => chrStarts needle []
  | c :: rest => chrStarts needle (c :: rest) || chrHasSub needle rest

/-- Python `k in v`: key membership for dicts, substring test for strings,
TypeError on None. -/
def pyIn (k : String) (v : Val) : Except PyErr Bool :=
  match v with
  | .vdict es => .ok (entsHasKey es k)
  | .vstr s => .ok (chrHasSub k.data s.data)
  | .vnone => .error .typeError

/-- Replace-or-append on an association list keyed by `Val` (Python dict
assignment `d[key] = value` where the key is itself a Python value). -/
def assocSetV (m : List (Val × Val)) (k v : Val) : List (Val × Val) :=
  match m with
  | [] => [(k, v)]
  | (k1, v1) :: rest =>
    if valBeq k1 k then (k1, v) :: rest else (k1, v1) :: assocSetV rest k v

/-!
Graph engine: StateManager (src/src/mcp_server/core/state_manager.py)
and ManagedTaskState (src/src/mcp_server/models/managed_task_state.py).

The node functions mutate a pydantic model in place in Python; we thread
the state functionally.  The LangGraph MemorySaver checkpoints the graph
state after every node that completes, which `persist_all` reproduces.
-/

/-- ManagedTaskState (pydantic model).  `history` entries and
`agent_responses` values are Python dicts, kept as `Val`s; the keys of
`agent_responses` are themselves Python values produced by `.get` calls. -/
structure ManagedTaskState where
  task_id : String
  current_step : String := "initial"
  status : String := "pending"
  history : List Val := []
  agent_responses : List (Val × Val) := []
  error_info : Option Val := none
deriving Repr

/-- GraphState TypedDict: the task state plus the `input_data` slot that
`invoke_graph_update` fills with the event input. -/
structure GraphState where
  task_state : ManagedTaskState
  input_data : Val
deriving Repr

/-- Source `StateManager._start_task_node`: marks the task in progress and appends
the start history entry.  Total (raises nothing). -/
def start_task_node (gs : GraphState) : GraphState :=
  { gs with task_state := { gs.task_state with
      current_step := "start_task",
      status := "in_progress",
      history := gs.task_state.history ++
        [dictV [("step", Val.vstr "start_task"),
                    ("message", Val.vstr "Task initiated.")]] } }

/-- The agent-event branch of `_process_request_node` (lines 75-97 of
state_manager.py).  `aed` is `agent_event_data`; `ts1` already carries the
`current_step = "process_request"` assignment made before the branch. -/
def process_event_branch (gs : GraphState) (ts1 : ManagedTaskState) (aed : Val) :
    Except PyErr GraphState :=
  match dictGet aed "source_agent_id" (Val.vstr "unknown_agent") with
  | .error e => .error e
  | .ok aid =>
  match dictGet aed "event_type" (Val.vstr "unknown_event") with
  | .error e => .error e
  | .ok et =>
  let ts2 := { ts1 with history := ts1.history ++
      [dictV [("step", Val.vstr "agent_event_received"),
                  ("agent_id", aid), ("event_type", et), ("data", aed)]] }
  match pyIn "status" aed with
  | .error e => .error e
  | .ok hasStatus =>
    if hasStatus then
      match dictIndex aed "status" with
      | .error e => .error e
      | .ok sv =>
        let resp := dictV [("last_event_type", et), ("status", sv), ("details", aed)]
        let ts3 := { ts2 with agent_responses := assocSetV ts2.agent_responses aid resp }
        let ts4 :=
          if valBeq sv (Val.vstr "completed_successfully") then
            { ts3 with status := "nearing_completion" }
          else if valBeq sv (Val.vstr "failed") then
            { ts3 with status := "error" }
          else ts3
        .ok { gs with task_state := ts4 }
    else .ok { gs with task_state := ts2 }

/-- Source `StateManager._process_request_node`.  Both `initial_graph_input` and
`agent_event_data` are bound to the same `input_data` value (lines 62 and 69),
so the guard `agent_event_data != initial_graph_input` compares a value with
itself.  The `.get` calls raise AttributeError when `input_data` is not a
dict, and nothing catches that. -/
def process_request_node (gs : GraphState) : Except PyErr GraphState :=
  let ts := gs.task_state
  let initial_graph_input := gs.input_data
  let agent_event_data := initial_graph_input
  let ts1 := { ts with current_step := "process_request" }
  if pythonTruthy agent_event_data && !(valBeq agent_event_data initial_graph_input) then
    process_event_branch gs ts1 agent_event_data
  else
    match dictGet initial_graph_input "action_type" (Val.vstr "N/A") with
    | .error e => .error e
    | .ok act =>
    match dictGet initial_graph_input "target_agent_id" (Val.vstr "N/A") with
    | .error e => .error e
    | .ok tgt =>
    match dictGet initial_graph_input "target_agent_id" (Val.vstr "unknown_agent") with
    | .error e => .error e
    | .ok tgtKey =>
      .ok { gs with task_state := { ts1 with
        history := ts1.history ++
          [dictV [("step", Val.vstr "process_request_initiated"),
                      ("action_type", act), ("target_agent_id", tgt)]],
        agent_responses := assocSetV ts1.agent_responses tgtKey
          (dictV [("status", Val.vstr "dispatched")]) } }

/-- Source `StateManager._end_task_node`: unconditionally writes
`current_step = "completed"` and `status = "completed"`. -/
def end_task_node (gs : GraphState) : GraphState :=
  { gs with task_state := { gs.task_state with
      current_step := "completed",
      status := "completed",
      history := gs.task_state.history ++
        [dictV [("step", Val.vstr "end_task"),
                    ("message", Val.vstr "Task processing finished.")]] } }

/-- Outcome of streaming the compiled graph once: the list of states the
checkpointer saved (one per completed node, in order), and either the final
state or the exception that escaped from a node. -/
inductive StreamOut
  | fail (persisted : List GraphState) (e : PyErr)
  | done (persisted : List GraphState) (final : GraphState)

/-- One full pass of `compiled_graph.stream`: the linear node sequence
start_task -> process_request -> custom_end_node, checkpointing after each
node; a node exception aborts the stream and propagates. -/
def stream_run (gs : GraphState) : StreamOut :=
  match process_request_node (start_task_node gs) with
  | .error e => .fail [start_task_node gs] e
  | .ok g2 =>
    .done [start_task_node gs, g2, end_task_node g2] (end_task_node g2)

/-- The StateManager: the set of task ids with a compiled graph, and the
MemorySaver checkpoints keyed by thread id. -/
structure Manager where
  graphs : List String
  checkpoints : String → Option GraphState

/-- A fresh StateManager. -/
def emptyManager : Manager := { graphs := [], checkpoints := fun _ => none }

/-- Save each streamed state into the checkpointer in order. -/
def persist_all (cps : String → Option GraphState) (tid : String)
    (ps : List GraphState) : String → Option GraphState :=
  ps.foldl (fun c g => fun x => if x = tid then some g else c x) cps

/-- Source `StateManager.initialize_task_graph`: compiles and registers a graph for
the task and returns a pristine ManagedTaskState.  It runs no node and never
touches the checkpointer (the initial input is built but not streamed). -/
def init_task_graph (m : Manager) (tid : String) (_initial_input : Val) :
    Manager × ManagedTaskState :=
  let ts : ManagedTaskState := { task_id := tid }
  let gs := if tid ∈ m.graphs then m.graphs else m.graphs ++ [tid]
  ({ m with graphs := gs }, ts)

/-- The `final_input_for_stream` that `invoke_graph_update` builds: with no
checkpoint, a fresh pending state whose input is `event_input or` an empty
dict; with a checkpoint, its task state, the new event input replacing the
checkpointed input unless the event input is None. -/
def stream_input (m : Manager) (tid : String) (ev : Val) : GraphState :=
  match m.checkpoints tid with
  | none =>
    { task_state := { task_id := tid }, input_data := pyOr ev (dictV []) }
  | some cp =>
    { task_state := cp.task_state,
      input_data := match ev with | Val.vnone => cp.input_data | _ => ev }

/-- Source `StateManager.invoke_graph_update`: returns None for an unknown task;
otherwise builds the stream input from the checkpoint (or a fresh pending
state when none exists), streams the whole node sequence, and returns the
final checkpointed task state.  There is no try/except around the stream:
a node exception propagates to the caller. -/
def invoke_graph_update (m : Manager) (tid : String) (ev : Val) :
    Manager × Except PyErr (Option ManagedTaskState) :=
  if tid ∈ m.graphs then
    match stream_run (stream_input m tid ev) with
    | .fail ps e =>
      ({ m with checkpoints := persist_all m.checkpoints tid ps }, .error e)
    | .done ps fin =>
      ({ m with checkpoints := persist_all m.checkpoints tid ps },
       .ok (some fin.task_state))
  else (m, .ok none)

/-- Source `StateManager.get_graph_state`: None for an unknown task or when no
checkpoint exists yet, otherwise the checkpointed task state. -/
def get_graph_state (m : Manager) (tid : String) : Option ManagedTaskState :=
  if tid ∈ m.graphs then (m.checkpoints tid).map (fun g => g.task_state)
  else none

/-- An external operation on the StateManager: register a task or advance it. -/
inductive Op
  | init (tid : String) (inp : Val)
  | invoke (tid : String) (ev : Val)

/-- Apply one operation, keeping the manager (the Python object mutates
in place whether or not `invoke_graph_update` raises). -/
def applyOp (m : Manager) : Op → Manager
  | .init t i => (init_task_graph m t i).1
  | .invoke t e => (invoke_graph_update m t e).1

/-- Run a sequence of operations against a fresh StateManager. -/
def applyOps (ops : List Op) : Manager :=
  ops.foldl applyOp emptyManager

/-!
BaseToolchainBridge (src/src/toolchains/base_toolchain_bridge.py).

`_submit_request` enqueues the request data with an attached future and
starts the single worker thread if none is alive.  The worker loop
(`_process_request_queue`) is `while True: request = queue.get(); ...`:
`queue.get()` blocks when the queue is empty, so the loop only ends when a
`None` sentinel (pushed by `shutdown`) is dequeued.  We run the worker
against the list of items it will dequeue; the outcome records whether it
stopped at a sentinel, or consumed everything and is now blocked in
`queue.get()` waiting for more items.
-/

/-- A queued bridge request (id, type, payload); `_future` is represented by
the id-indexed resolution list the worker produces. -/
structure BReq (ρ : Type) where
  id : Nat
  rtype : String
  payload : ρ
deriving DecidableEq, Repr

/-- How a worker loop left off. -/
inductive WorkerExit
  | blocked
  | stoppedBySentinel
  | exited
deriving DecidableEq, Repr

/-- The items before the first `None` sentinel in the dequeue order. -/
def takeWhileSome {ρ : Type} : List (Option (BReq ρ)) → List (BReq ρ)
  | [] => []
  | none :: _ => []
  | some r :: rest => r :: takeWhileSome rest

/-- Source `BaseToolchainBridge._process_request_queue` run against the dequeue
order `q`.  Each dequeued request has its future resolved with the result
of `_handle_specific_request` (`Except.ok`) or with the raised exception
(`Except.error`, from the `except` clause), and the loop continues; a
`None` sentinel breaks the loop; an exhausted queue leaves the worker
blocked inside `queue.get()`. -/
def process_request_queue {ρ ε α : Type} (handle : BReq ρ → Except ε α) :
    List (Option (BReq ρ)) → List (Nat × Except ε α) × WorkerExit
  | [] => ([], .blocked)
  | none :: _ => ([], .stoppedBySentinel)
  | some r :: rest =>
    let res := process_request_queue handle rest
    ((r.id, handle r) :: res.1, res.2)

/-!
RetroDiffusionToolchainBridge
(src/.rooroo/.../retro_diffusion_integration.py).

`generate_asset` validates the parameters, checks the result cache keyed by
the canonical `(prompt, validated_parameters)` serialization, and on a miss
enqueues the request and calls `_process_generation_queue`, which starts a
NEW worker thread every time.  Each worker loops `while not queue.empty()`,
so it exits once the queue is empty.  Thread interleaving is modelled by an
explicit schedule of atomic actions; the mock pipeline returns a fresh
asset id per invocation (MockImageData gets a fresh uuid).
-/

/-- A Python parameter value accepted by the validator: ints, bools,
strings, None, or an int list (the `resolution` shape that matters). -/
inductive PVal
  | pint (n : Int)
  | pbool (b : Bool)
  | pstr (s : String)
  | pnone
  | pintlist (l : List Int)
deriving DecidableEq, Repr

/-- Python truthiness of a parameter value (what `bool(x)` returns). -/
def pvalTruthy : PVal → Bool
  | .pint n => n != 0
  | .pbool b => b
  | .pstr s => !s.isEmpty
  | .pnone => false
  | .pintlist l => !l.isEmpty

/-- First binding of `k` in a parameter dict. -/
def lookupP (ps : List (String × PVal)) (k : String) : Option PVal :=
  match ps with
  | [] => none
  | (k1, v1) :: rest => if k1 = k then some v1 else lookupP rest k

/-- The `n & (n - 1) == 0` power-of-two test used by the validator. -/
def isPow2 (n : Int) : Bool :=
  n > 0 && (n.toNat &&& (n.toNat - 1) == 0)

/-- The validated parameter set `validate_retro_diffusion_parameters`
builds: a dict with exactly these four keys, insertion-order free. -/
structure VParams where
  resolution : Int × Int
  palette_lock : Bool
  tileable : Bool
  animation_frames : Int
deriving DecidableEq, Repr

/-- Source `validate_retro_diffusion_parameters`: resolution must be a 2-int list
of positive powers of two, else it defaults to 64x64; palette_lock and
tileable are `bool(...)` of the given value with defaults True and False;
animation_frames must be a positive int, else 1. -/
def validate_retro_diffusion_parameters (ps : List (String × PVal)) : VParams :=
  let resolution :=
    match lookupP ps "resolution" with
    | some (.pintlist [a, b]) =>
      if a > 0 && b > 0 then
        if isPow2 a && isPow2 b then (a, b) else ((64 : Int), (64 : Int))
      else ((64 : Int), (64 : Int))
    | _ => ((64 : Int), (64 : Int))
  let palette_lock := pvalTruthy ((lookupP ps "palette_lock").getD (.pbool true))
  let tileable := pvalTruthy ((lookupP ps "tileable").getD (.pbool false))
  let animation_frames :=
    match lookupP ps "animation_frames" with
    | some (.pint n) => if n > 0 then n else 1
    | some _ => 1
    | none => 1
  { resolution := resolution, palette_lock := palette_lock,
    tileable := tileable, animation_frames := animation_frames }

/-- Source `_generate_cache_key`: the canonical key is the prompt together with the
sorted-keys serialization of the validated parameters; since the validated
dict always has the same four keys, the serialization is determined by (and
determines) the `VParams` record, which we use as the key directly. -/
def generate_cache_key (prompt : String) (ps : List (String × PVal)) :
    String × VParams :=
  (prompt, validate_retro_diffusion_parameters ps)

/-- One queued generation request: its submission index and canonical key. -/
structure GenReq where
  idx : Nat
  key : String × VParams
deriving DecidableEq, Repr

/-- A retro worker thread between atomic steps: at the
`while not queue.empty()` check, holding a dequeued request, or exited. -/
inductive WStatus
  | atLoop
  | holding (r : GenReq)
  | wdone
deriving DecidableEq, Repr

/-- Observable events of the retro bridge. -/
inductive REv
  | cacheHit (idx : Nat) (key : String × VParams) (asset : Nat)
  | enqueued (idx : Nat) (key : String × VParams)
  | invoked (key : String × VParams)
  | resolved (idx : Nat) (asset : Nat)
deriving DecidableEq, Repr

/-- Cache lookup. -/
def rcacheGet (c : List ((String × VParams) × Nat)) (k : String × VParams) :
    Option Nat :=
  match c with
  | [] => none
  | (k1, v1) :: rest => if k1 = k then some v1 else rcacheGet rest k

/-- Cache insert (replace-or-append, like Python dict assignment). -/
def rcacheSet (c : List ((String × VParams) × Nat)) (k : String × VParams)
    (v : Nat) : List ((String × VParams) × Nat) :=
  match c with
  | [] => [(k, v)]
  | (k1, v1) :: rest =>
    if k1 = k then (k1, v) :: rest else (k1, v1) :: rcacheSet rest k v

/-- The whole retro bridge instance: result cache, generation queue, the
worker threads spawned so far, the event log, and the id counters (uuid
draws for requests, fresh MockImageData ids for results). -/
structure RState where
  cache : List ((String × VParams) × Nat)
  queue : List GenReq
  workers : List WStatus
  log : List REv
  nextReq : Nat
  nextAsset : Nat
deriving Repr

/-- The bridge right after `__init__`. -/
def initRState : RState :=
  { cache := [], queue := [], workers := [], log := [], nextReq := 0, nextAsset := 0 }

/-- An atomic action: a `generate_asset` call, or one step of worker `i`. -/
inductive RAct
  | submit (prompt : String) (params : List (String × PVal))
  | work (i : Nat)

/-- Apply one atomic action.  `submit` is `generate_asset`: on a cache hit
the future is resolved immediately with the cached asset and nothing is
enqueued; on a miss the request is enqueued and
`_process_generation_queue` spawns a fresh worker thread.  `work i` is one
atomic step of worker `i`: from the loop head it exits if the queue is
empty, else dequeues; holding a request it invokes the pipeline, caches the
fresh result under the request key, and resolves the future. -/
def applyRAct (s : RState) : RAct → RState
  | .submit prompt params =>
    let k := generate_cache_key prompt params
    match rcacheGet s.cache k with
    | some v =>
      { s with log := s.log ++ [.cacheHit s.nextReq k v], nextReq := s.nextReq + 1 }
    | none =>
      { s with queue := s.queue ++ [{ idx := s.nextReq, key := k }],
               workers := s.workers ++ [.atLoop],
               log := s.log ++ [.enqueued s.nextReq k],
               nextReq := s.nextReq + 1 }
  | .work i =>
    match s.workers[i]? with
    | some .atLoop =>
      match s.queue with
      | [] => { s with workers := s.workers.set i .wdone }
      | r :: rest => { s with workers := s.workers.set i (.holding r), queue := rest }
    | some (.holding r) =>
      { s with cache := rcacheSet s.cache r.key s.nextAsset,
               log := s.log ++ [.invoked r.key, .resolved r.idx s.nextAsset],
               nextAsset := s.nextAsset + 1,
               workers := s.workers.set i .atLoop }
    | _ => s

/-- Run a schedule of atomic actions on a fresh bridge. -/
def runRetro (acts : List RAct) : RState :=
  acts.foldl applyRAct initRState

/-- The canonical keys passed to the pipeline, in invocation order. -/
def invokedKeys (log : List REv) : List (String × VParams) :=
  log.filterMap (fun e => match e with | .invoked k => some k | _ => none)

/-- The canonical keys enqueued by submits, in submission order. -/
def enqueuedKeys (log : List REv) : List (String × VParams) :=
  log.filterMap (fun e => match e with | .enqueued _ k => some k | _ => none)

/-- The (request index, asset id) future resolutions from workers. -/
def resolvedPairs (log : List REv) : List (Nat × Nat) :=
  log.filterMap (fun e => match e with | .resolved i a => some (i, a) | _ => none)

/-!
CollaborationManager and AgentEventBus
(src/src/protocols/advanced_collaboration_protocols.py).

`registered_agents` is a Python dict agent_id -> AgentProfile; iteration in
`request_assistance` follows dict insertion order, i.e. registration order,
so it is kept as an association list.  The two impure inputs of
`request_assistance` (the `int(time.time())` suffix of the request id and
the random sub-task number) are passed in as parameters.  The event bus
`subscribers` dict is modelled as a function from event type to callback
list, callbacks being identifiers compared like Python compares callables.
-/

/-- AgentProfile. -/
structure AgentProfile where
  agent_id : String
  capabilities : List String
  current_task_id : Option String := none
  status : String := "idle"
deriving DecidableEq, Repr

/-- TaskAssistanceRequest as it ends up stored by `request_assistance`
(`task_details` is an arbitrary Python dict). -/
structure TaskAssistanceRequest where
  request_id : String
  requesting_agent_id : String
  original_task_id : String
  required_capability : String
  task_details : Val
  status : String
  assigned_assisting_agent_id : Option String
deriving Repr

/-- Replace-or-append on a string-keyed association list (Python dict
assignment, keeping insertion order for existing keys). -/
def assocSetS {A : Type} (l : List (String × A)) (k : String) (v : A) :
    List (String × A) :=
  match l with
  | [] => [(k, v)]
  | (k1, v1) :: rest =>
    if k1 = k then (k1, v) :: rest else (k1, v1) :: assocSetS rest k v

/-- In-place update of the value at `k`, if present. -/
def assocUpdate {A : Type} (l : List (String × A)) (k : String) (f : A → A) :
    List (String × A) :=
  match l with
  | [] => []
  | (k1, v1) :: rest =>
    if k1 = k then (k1, f v1) :: rest else (k1, v1) :: assocUpdate rest k f

/-- First value bound to `k`. -/
def assocFind {A : Type} (l : List (String × A)) (k : String) : Option A :=
  match l with
  | [] => none
  | (k1, v1) :: rest => if k1 = k then some v1 else assocFind rest k

/-- The CollaborationManager state. -/
structure CollabState where
  registered_agents : List (String × AgentProfile)
  pending_assistance_requests : List (String × TaskAssistanceRequest)

/-- The manager right after `__init__`. -/
def emptyCollab : CollabState :=
  { registered_agents := [], pending_assistance_requests := [] }

/-- Source `CollaborationManager.register_agent`: stores a fresh idle profile. -/
def register_agent (c : CollabState) (aid : String) (caps : List String) :
    CollabState :=
  let profile : AgentProfile := { agent_id := aid, capabilities := caps }
  { c with registered_agents := assocSetS c.registered_agents aid profile }

/-- Source `CollaborationManager.update_agent_status`: sets status and
current_task_id when the agent is registered, else only logs. -/
def update_agent_status (c : CollabState) (aid status : String)
    (tid : Option String) : CollabState :=
  let f : AgentProfile → AgentProfile :=
    fun p => { p with status := status, current_task_id := tid }
  { c with registered_agents := assocUpdate c.registered_agents aid f }

/-- The selection loop of `request_assistance`: the first agent in
registration order that is not the requester, has the capability, and is
idle. -/
def find_suitable (reg : List (String × AgentProfile))
    (requester cap : String) : Option String :=
  match reg with
  | [] => none
  | (aid, p) :: rest =>
    if aid = requester then find_suitable rest requester cap
    else if cap ∈ p.capabilities ∧ p.status = "idle" then some aid
    else find_suitable rest requester cap

/-- Source `CollaborationManager.request_assistance`.  Returns None when the
requester is unregistered or when no suitable idle agent exists (the
Python guard `if not suitable_assisting_agent_id` also treats an empty
agent id as no match).  On success it stores the TaskAssistanceRequest
(whose status reaches "dispatched_to_mcp" because the simulated dispatch
cannot raise), marks the chosen agent processing_task with the dispatched
sub-task id, and returns the request id.  `now` is `int(time.time())` and
`rnd` the random sub-task number. -/
def request_assistance (c : CollabState) (requesting_agent_id
    original_task_id required_capability : String) (task_details : Val)
    (now rnd : Nat) : CollabState × Option String :=
  if assocFind c.registered_agents requesting_agent_id = none then (c, none)
  else
    match find_suitable c.registered_agents requesting_agent_id required_capability with
    | none => (c, none)
    | some aid =>
      if aid = "" then (c, none)
      else
        let rid := "assist_" ++ original_task_id ++ "_" ++ toString now
        let req : TaskAssistanceRequest :=
          { request_id := rid,
            requesting_agent_id := requesting_agent_id,
            original_task_id := original_task_id,
            required_capability := required_capability,
            task_details := task_details,
            status := "dispatched_to_mcp",
            assigned_assisting_agent_id := some aid }
        let subTask := "mcp_subtask_" ++ toString rnd
        let newPending := assocSetS c.pending_assistance_requests rid req
        let c1 := { c with pending_assistance_requests := newPending }
        let c2 := update_agent_status c1 aid "processing_task" (some subTask)
        (c2, some rid)

/-- The status of a registered agent. -/
def agent_status (c : CollabState) (aid : String) : Option String :=
  (assocFind c.registered_agents aid).map (fun p => p.status)

/-- Source `AgentEventBus.subscribers`: event type to list of callbacks, callbacks
identified by comparable ids. -/
def Bus : Type := String → List Nat

/-- The bus right after `__init__`. -/
def emptyBus : Bus := fun _ => []

/-- Source `AgentEventBus.subscribe`: appends the callback only when it is not
already subscribed for that event type. -/
def subscribe (b : Bus) (et : String) (cb : Nat) : Bus :=
  fun x => if x = et then (if cb ∈ b et then b et else b et ++ [cb]) else b x

/-- Source `AgentEventBus.unsubscribe`: removes the callback if present (deleting
the emptied key is invisible to lookups). -/
def unsubscribe (b : Bus) (et : String) (cb : Nat) : Bus :=
  fun x => if x = et then (if cb ∈ b et then (b et).erase cb else b et) else b x

/-- The callbacks `publish_event` gathers and awaits for an event type:
every entry of the subscriber list, each invoked once. -/
def publishInvocations (b : Bus) (et : String) : List Nat := b et

/-- A subscribe or unsubscribe call. -/
inductive BusOp
  | sub (et : String) (cb : Nat)
  | unsub (et : String) (cb : Nat)

/-- Apply one bus operation. -/
def applyBusOp (b : Bus) : BusOp → Bus
  | .sub et cb => subscribe b et cb
  | .unsub et cb => unsubscribe b et cb

/-- Run a sequence of subscribe/unsubscribe calls on a fresh bus. -/
def applyBusOps (ops : List BusOp) : Bus :=
  ops.foldl applyBusOp emptyBus

/-!
Helper lemmas
-/

/-- The base worker resolves exactly the requests before the first sentinel,
each with the result or exception of `_handle_specific_request`. -/
theorem process_request_queue_spec {ρ ε α : Type} (handle : BReq ρ → Except ε α)
    (q : List (Option (BReq ρ))) :
    (process_request_queue handle q).1
      = (takeWhileSome q).map (fun r => (r.id, handle r)) := by
  induction q with
  | nil => rfl
  | cons x rest ih =>
    cases x with
    | none => rfl
    | some r => simp [process_request_queue, takeWhileSome, ih]

/-- On a sentinel-free queue the base worker ends up blocked in
`queue.get()`, not exited. -/
theorem process_request_queue_blocked {ρ ε α : Type} (handle : BReq ρ → Except ε α)
    (q : List (Option (BReq ρ))) (h : ∀ x ∈ q, x ≠ none) :
    (process_request_queue handle q).2 = WorkerExit.blocked := by
  induction q with
  | nil => rfl
  | cons x rest ih =>
    cases x with
    | none => exact absurd rfl (h none (by simp))
    | some r =>
      simp only [process_request_queue]
      exact ih (fun y hy => h y (by simp [hy]))

/-- Registering graphs never touches the checkpointer. -/
theorem init_ops_checkpoints (l : List (String × Val)) (m : Manager) :
    ((l.map (fun p => Op.init p.1 p.2)).foldl applyOp m).checkpoints
      = m.checkpoints := by
  induction l generalizing m with
  | nil => rfl
  | cons p rest ih =>
    simp only [List.map_cons, List.foldl_cons]
    rw [ih]
    rfl

/-!
Claim C1
-/

/-- Claim C1, counterexample: applied to a graph state whose status a prior
node set to "error", the end_task node does NOT leave the status as
"error" — it overwrites it with "completed". -/
theorem c1_counterexample :
    (end_task_node
      { task_state := { task_id := "t0", current_step := "process_request",
                        status := "error" },
        input_data := dictV [] }).task_state.status = "completed"
    ∧ ("completed" : String) ≠ "error" :=
  ⟨rfl, by decide⟩

/-- Claim C1 (amended): for every task run to completion, the end_task node
forces current_step to "completed" and unconditionally sets status to
"completed" (overwriting an "error" a prior node may have set), appending
its history entry and leaving error_info untouched. -/
theorem c1_end_task_forces_completed (gs : GraphState) :
    (end_task_node gs).task_state.status = "completed"
    ∧ (end_task_node gs).task_state.current_step = "completed"
    ∧ (end_task_node gs).task_state.history
        = gs.task_state.history ++
          [dictV [("step", Val.vstr "end_task"),
                      ("message", Val.vstr "Task processing finished.")]]
    ∧ (end_task_node gs).task_state.error_info = gs.task_state.error_info :=
  ⟨rfl, rfl, rfl, rfl⟩

/-!
Claim C3
-/

/-- Claim C3: initialize_task_graph returns a pristine pending TaskState,
runs no node and writes nothing to the checkpoint store; consequently,
after any sequence of initializations and before any advance call,
get_graph_state returns NotFound (None) for every task id. -/
theorem c3_init_pristine_and_not_found :
    (∀ (m : Manager) (tid : String) (inp : Val),
       (init_task_graph m tid inp).2.status = "pending"
       ∧ (init_task_graph m tid inp).2.current_step = "initial"
       ∧ (init_task_graph m tid inp).2.history = []
       ∧ (init_task_graph m tid inp).2.agent_responses = []
       ∧ (init_task_graph m tid inp).2.error_info = none
       ∧ (init_task_graph m tid inp).1.checkpoints = m.checkpoints)
    ∧ (∀ (inits : List (String × Val)) (tid : String),
       get_graph_state (applyOps (inits.map (fun p => Op.init p.1 p.2))) tid
         = none) := by
  constructor
  · intro m tid inp
    exact ⟨rfl, rfl, rfl, rfl, rfl, rfl⟩
  · intro inits tid
    unfold get_graph_state applyOps
    rw [init_ops_checkpoints inits emptyManager]
    split <;> simp [emptyManager]

/-!
Claim C9
-/

/-- Claim C9: for every request dequeued by the base bridge worker, the
future of the request is resolved with the handler result or with the raised
exception, never dropped, and the loop continues past failures: the
resolution list is exactly the map of the handler over the dequeued
requests in order. -/
theorem c9_worker_resolves_every_request {ρ ε α : Type}
    (handle : BReq ρ → Except ε α) (q : List (Option (BReq ρ))) :
    (process_request_queue handle q).1
      = (takeWhileSome q).map (fun r => (r.id, handle r)) :=
  process_request_queue_spec handle q

/-!
Claim C4
-/

/-- Claim C4, counterexample: the BaseToolchainBridge worker, after
draining a one-request queue, is blocked in `queue.get()` — it has not
exited once the queue became empty. -/
theorem c4_counterexample :
    (process_request_queue
      (fun r => (Except.ok r.payload : Except String Nat))
      [some { id := 0, rtype := "ASSEMBLE_SCENE", payload := 5 }]).2
      = WorkerExit.blocked
    ∧ WorkerExit.blocked ≠ WorkerExit.exited :=
  ⟨rfl, by decide⟩

/-- Claim C4 (amended): the BaseToolchainBridge worker never exits on an
empty queue — on any sentinel-free dequeue order it ends blocked in
`queue.get()`, exiting only via the shutdown sentinel; only the
RetroDiffusion bridge worker exits once its queue is empty, and there a
cache-miss submit always starts one more worker thread. -/
theorem c4_worker_exit_policy :
    (∀ (ρ ε α : Type) (handle : BReq ρ → Except ε α)
       (q : List (Option (BReq ρ))), (∀ x ∈ q, x ≠ none) →
       (process_request_queue handle q).2 = WorkerExit.blocked)
    ∧ (∀ (s : RState) (i : Nat), s.workers[i]? = some WStatus.atLoop →
       s.queue = [] →
       (applyRAct s (RAct.work i)).workers[i]? = some WStatus.wdone)
    ∧ (∀ (s : RState) (p : String) (d : List (String × PVal)),
       rcacheGet s.cache (generate_cache_key p d) = none →
       (applyRAct s (RAct.submit p d)).workers.length
         = s.workers.length + 1) := by
  refine ⟨fun ρ ε α handle q h => process_request_queue_blocked handle q h, ?_, ?_⟩
  · intro s i h1 h2
    have hlt : i < s.workers.length := (List.getElem?_eq_some_iff.mp h1).1
    simp only [applyRAct]
    rw [h1, h2]
    simp [List.getElem?_set_self hlt]
  · intro s p d h
    simp only [applyRAct]
    rw [h]
    simp

/-- Witness for c4_worker_exit_policy at concrete inputs. -/
theorem c4_witness :
    (process_request_queue
      (fun r => (Except.ok r.payload : Except String Nat))
      [some { id := 3, rtype := "GENERATE_ASSET", payload := 9 }]).2
      = WorkerExit.blocked
    ∧ (applyRAct { initRState with workers := [WStatus.atLoop] }
        (RAct.work 0)).workers[0]? = some WStatus.wdone
    ∧ (applyRAct initRState (RAct.submit "w" [])).workers.length
        = initRState.workers.length + 1 :=
  ⟨c4_worker_exit_policy.1 Nat String Nat _ _ (by decide),
   c4_worker_exit_policy.2.1 { initRState with workers := [WStatus.atLoop] } 0
     (by decide) rfl,
   c4_worker_exit_policy.2.2 initRState "w" [] rfl⟩

/-!
Claim C5
-/

/-- Claim C5, counterexample: on the RetroDiffusion bridge, with the two
per-submit worker threads interleaved so that the second dequeuer reaches
the pipeline first, the pipeline is invoked for the second submission
before the first: submission order is p1 then p2, invocation order is p2
then p1. -/
theorem c5_counterexample :
    enqueuedKeys (runRetro [.submit "p1" [], .submit "p2" [],
        .work 0, .work 1, .work 1, .work 0]).log
      = [("p1", validate_retro_diffusion_parameters []),
         ("p2", validate_retro_diffusion_parameters [])]
    ∧ invokedKeys (runRetro [.submit "p1" [], .submit "p2" [],
        .work 0, .work 1, .work 1, .work 0]).log
      = [("p2", validate_retro_diffusion_parameters []),
         ("p1", validate_retro_diffusion_parameters [])]
    ∧ ("p1", validate_retro_diffusion_parameters [])
        ≠ ("p2", validate_retro_diffusion_parameters []) := by
  refine ⟨rfl, rfl, by decide⟩

/-- Claim C5 (amended): within one BaseToolchainBridge the single worker
invokes the handler strictly in submission (queue) order; the
RetroDiffusion bridge, which starts a new worker per submit, admits
schedules that invoke the pipeline out of submission order. -/
theorem c5_fifo_per_bridge :
    (∀ (ρ ε α : Type) (handle : BReq ρ → Except ε α)
       (q : List (Option (BReq ρ))),
       ((process_request_queue handle q).1).map Prod.fst
         = (takeWhileSome q).map BReq.id)
    ∧ (∃ acts : List RAct, ∃ k1 k2 : String × VParams, k1 ≠ k2
       ∧ enqueuedKeys (runRetro acts).log = [k1, k2]
       ∧ invokedKeys (runRetro acts).log = [k2, k1]) := by
  constructor
  · intro ρ ε α handle q
    rw [process_request_queue_spec]
    simp [List.map_map, Function.comp]
  · exact ⟨[.submit "p1" [], .submit "p2" [], .work 0, .work 1, .work 1, .work 0],
      ("p1", validate_retro_diffusion_parameters []),
      ("p2", validate_retro_diffusion_parameters []),
      by decide, rfl, rfl⟩

/-!
Claim C6
-/

/-- A parameter dict, one insertion order. -/
def paramsA : List (String × PVal) :=
  [("tileable", .pbool true), ("palette_lock", .pbool false)]

/-- The same bindings in the other insertion order. -/
def paramsB : List (String × PVal) :=
  [("palette_lock", .pbool false), ("tileable", .pbool true)]

/-- Two equivalent submits racing ahead of the workers, then both workers
processing. -/
def actsDup : List RAct :=
  [.submit "p" paramsA, .submit "p" paramsB, .work 0, .work 0, .work 1, .work 1]

/-- The parameter keys `validate_retro_diffusion_parameters` reads. -/
def canonKeys : List String :=
  ["resolution", "palette_lock", "tileable", "animation_frames"]

/-- A bridge state whose cache already holds the canonical key of
`paramsA` under prompt "p". -/
def stHit : RState :=
  { initRState with cache := [(generate_cache_key "p" paramsA, 7)] }

/-- Claim C6, counterexample: two submits with the same prompt and
equivalent parameter dicts (keys in different insertion order) that both
arrive before the first result is cached lead to the pipeline being
invoked TWICE for the same canonical key, and the two futures resolve to
two distinct result objects (asset ids 0 and 1), refuting "at most once"
and "same cached result object". -/
theorem c6_counterexample :
    validate_retro_diffusion_parameters paramsA
      = validate_retro_diffusion_parameters paramsB
    ∧ (invokedKeys (runRetro actsDup).log).count
        ("p", validate_retro_diffusion_parameters paramsA) = 2
    ∧ resolvedPairs (runRetro actsDup).log = [(0, 0), (1, 1)] := by
  refine ⟨by decide, by decide, rfl⟩

/-- Claim C6 (amended): equivalent parameter dicts (same bindings for the
four keys the validator reads, in any insertion order) canonicalize to the
same validated parameters and hence the same cache key, and a submit that
hits the cache resolves its future immediately with the cached object,
without enqueueing and without starting a worker; the pipeline is invoked
at most once per canonical key only when the second submit arrives after
the first result was cached — equivalent submits racing before completion
each invoke the pipeline. -/
theorem c6_cache_canonicalization :
    (∀ (d1 d2 : List (String × PVal)),
       (∀ k ∈ canonKeys, lookupP d1 k = lookupP d2 k) →
       validate_retro_diffusion_parameters d1
         = validate_retro_diffusion_parameters d2)
    ∧ (∀ (s : RState) (p : String) (d : List (String × PVal)) (v : Nat),
       rcacheGet s.cache (generate_cache_key p d) = some v →
       (applyRAct s (RAct.submit p d)).queue = s.queue
       ∧ (applyRAct s (RAct.submit p d)).workers = s.workers
       ∧ (applyRAct s (RAct.submit p d)).cache = s.cache
       ∧ (applyRAct s (RAct.submit p d)).log
           = s.log ++ [REv.cacheHit s.nextReq (generate_cache_key p d) v]) := by
  constructor
  · intro d1 d2 h
    have h1 := h "resolution" (by decide)
    have h2 := h "palette_lock" (by decide)
    have h3 := h "tileable" (by decide)
    have h4 := h "animation_frames" (by decide)
    unfold validate_retro_diffusion_parameters
    rw [h1, h2, h3, h4]
  · intro s p d v h
    simp only [applyRAct]
    rw [h]
    exact ⟨rfl, rfl, rfl, rfl⟩

/-- Witness for c6_cache_canonicalization at concrete inputs. -/
theorem c6_witness :
    validate_retro_diffusion_parameters paramsA
      = validate_retro_diffusion_parameters paramsB
    ∧ (applyRAct stHit (RAct.submit "p" paramsA)).queue = stHit.queue
    ∧ (applyRAct stHit (RAct.submit "p" paramsA)).workers = stHit.workers
    ∧ (applyRAct stHit (RAct.submit "p" paramsA)).cache = stHit.cache
    ∧ (applyRAct stHit (RAct.submit "p" paramsA)).log
        = stHit.log ++ [REv.cacheHit stHit.nextReq
            (generate_cache_key "p" paramsA) 7] :=
  ⟨c6_cache_canonicalization.1 paramsA paramsB (by decide),
   c6_cache_canonicalization.2 stHit "p" paramsA 7 (by decide)⟩

/-!
Claim C10
-/

/-- The callback just subscribed is in the subscriber list. -/
theorem subscribe_mem (b : Bus) (et : String) (cb : Nat) :
    cb ∈ subscribe b et cb et := by
  unfold subscribe
  simp only [if_pos rfl]
  by_cases h : cb ∈ b et <;> simp [h]

/-- One subscribe or unsubscribe call keeps every subscriber list
duplicate-free. -/
theorem applyBusOp_nodup (b : Bus) (hb : ∀ x, (b x).Nodup) (op : BusOp) :
    ∀ x, ((applyBusOp b op) x).Nodup := by
  intro x
  cases op with
  | sub et cb =>
    simp only [applyBusOp, subscribe]
    by_cases hx : x = et
    · simp only [if_pos hx]
      by_cases hm : cb ∈ b et
      · simpa [hm] using hb et
      · simp only [if_neg hm]
        rw [List.nodup_append]
        exact ⟨hb et, List.nodup_singleton cb, by simpa using hm⟩
    · simpa [if_neg hx] using hb x
  | unsub et cb =>
    simp only [applyBusOp, unsubscribe]
    by_cases hx : x = et
    · simp only [if_pos hx]
      by_cases hm : cb ∈ b et
      · simpa [hm] using (hb et).erase cb
      · simpa [hm] using hb et
    · simpa [if_neg hx] using hb x

/-- Every reachable bus has duplicate-free subscriber lists. -/
theorem applyBusOps_nodup (ops : List BusOp) :
    ∀ et, ((applyBusOps ops) et).Nodup := by
  suffices h : ∀ (l : List BusOp) (b : Bus), (∀ x, (b x).Nodup) →
      ∀ x, ((l.foldl applyBusOp b) x).Nodup by
    exact h ops emptyBus (fun _ => List.nodup_nil)
  intro l
  induction l with
  | nil => intro b hb x; exact hb x
  | cons op rest ih =>
    intro b hb x
    exact ih (applyBusOp b op) (applyBusOp_nodup b hb op) x

/-- Claim C10: subscribing the same callback twice to the same event type
is a no-op, and for every publish each distinct subscribed callback is
invoked exactly once — after any operation sequence no callback appears
more than once in the gathered invocation list, and after a subscribe it
appears exactly once no matter how many duplicate subscribes preceded. -/
theorem c10_subscribe_once :
    (∀ (b : Bus) (et : String) (cb : Nat),
       subscribe (subscribe b et cb) et cb = subscribe b et cb)
    ∧ (∀ (ops : List BusOp) (et : String) (cb : Nat),
       (publishInvocations (applyBusOps ops) et).count cb ≤ 1)
    ∧ (∀ (ops : List BusOp) (et : String) (cb : Nat),
       (publishInvocations (applyBusOps (ops ++ [BusOp.sub et cb])) et).count cb
         = 1) := by
  refine ⟨?_, ?_, ?_⟩
  · intro b et cb
    funext x
    by_cases hx : x = et
    · subst hx
      by_cases hm : cb ∈ b x
      · simp [subscribe, hm]
      · simp [subscribe, hm]
    · simp [subscribe, if_neg hx]
  · intro ops et cb
    exact List.nodup_iff_count_le_one.mp (applyBusOps_nodup ops et) cb
  · intro ops et cb
    have hfold : applyBusOps (ops ++ [BusOp.sub et cb])
        = applyBusOp (applyBusOps ops) (BusOp.sub et cb) := by
      simp [applyBusOps, List.foldl_append]
    rw [hfold]
    have hnd : ∀ x, ((applyBusOp (applyBusOps ops) (BusOp.sub et cb)) x).Nodup :=
      applyBusOp_nodup (applyBusOps ops) (applyBusOps_nodup ops) (BusOp.sub et cb)
    exact List.count_eq_one_of_mem (hnd et)
      (subscribe_mem (applyBusOps ops) et cb)

/-!
Claims C2 and C8: error propagation and status evolution
-/

/-- The agent-event branch never touches error_info. -/
theorem process_event_branch_error_info (gs : GraphState)
    (ts1 : ManagedTaskState) (aed : Val) (g' : GraphState)
    (h : process_event_branch gs ts1 aed = .ok g') :
    g'.task_state.error_info = ts1.error_info := by
  unfold process_event_branch at h
  split at h
  · exact Except.noConfusion h
  · split at h
    · exact Except.noConfusion h
    · split at h
      · exact Except.noConfusion h
      · split at h
        · split at h
          · exact Except.noConfusion h
          · injection h with h2
            subst h2
            dsimp only
            split
            · rfl
            · split <;> rfl
        · injection h with h2
          subst h2
          rfl

/-- When process_request completes, it leaves error_info unchanged. -/
theorem process_ok_error_info (gs : GraphState) (g' : GraphState)
    (h : process_request_node gs = .ok g') :
    g'.task_state.error_info = gs.task_state.error_info := by
  simp only [process_request_node] at h
  split at h
  · have hb := process_event_branch_error_info _ _ _ _ h
    exact hb
  · split at h
    · exact Except.noConfusion h
    · split at h
      · exact Except.noConfusion h
      · split at h
        · exact Except.noConfusion h
        · injection h with h2
          subst h2
          rfl

/-- Every state a stream run hands to the checkpointer carries the
error_info of the stream input unchanged: no node ever records an error. -/
theorem stream_run_states (gs : GraphState) :
    (∀ ps e, stream_run gs = .fail ps e →
       ∀ g ∈ ps, g.task_state.error_info = gs.task_state.error_info)
    ∧ (∀ ps f, stream_run gs = .done ps f →
       ∀ g ∈ ps, g.task_state.error_info = gs.task_state.error_info) := by
  unfold stream_run
  cases hpr : process_request_node (start_task_node gs) with
  | error e =>
    constructor
    · intro ps e' hps g hg
      injection hps with h1 h2
      subst h1
      rcases List.mem_singleton.mp hg with rfl
      rfl
    · intro ps f hps
      exact StreamOut.noConfusion hps
  | ok g2 =>
    constructor
    · intro ps e' hps
      exact StreamOut.noConfusion hps
    · intro ps f hps g hg
      injection hps with h1 h2
      subst h1
      have h2i : g2.task_state.error_info = gs.task_state.error_info :=
        process_ok_error_info (start_task_node gs) g2 hpr
      simp only [List.mem_cons, List.not_mem_nil, or_false] at hg
      rcases hg with rfl | rfl | rfl
      · rfl
      · exact h2i
      · exact h2i

/-- A checkpoint written by `persist_all` is one of the streamed states or
was already there. -/
theorem persist_all_some (ps : List GraphState)
    (cps : String → Option GraphState) (tid t : String) (g : GraphState)
    (h : persist_all cps tid ps t = some g) : g ∈ ps ∨ cps t = some g := by
  induction ps generalizing cps with
  | nil => exact Or.inr h
  | cons p rest ih =>
    have h' : persist_all (fun x => if x = tid then some p else cps x) tid rest t
        = some g := h
    rcases ih _ h' with hmem | hold
    · exact Or.inl (List.mem_cons_of_mem p hmem)
    · by_cases ht : t = tid
      · rw [if_pos ht] at hold
        injection hold with hpg
        exact Or.inl (hpg ▸ List.mem_cons_self p rest)
      · exact Or.inr (by rwa [if_neg ht] at hold)

/-- Invariant: every checkpointed state has error_info = None. -/
def CpInv (m : Manager) : Prop :=
  ∀ t g, m.checkpoints t = some g → g.task_state.error_info = none

/-- The stream input never starts with a recorded error. -/
theorem stream_input_error_info (m : Manager) (tid : String) (ev : Val)
    (hm : CpInv m) : (stream_input m tid ev).task_state.error_info = none := by
  unfold stream_input
  cases hcp : m.checkpoints tid with
  | none => rfl
  | some cp => exact hm tid cp hcp

/-- Both engine operations preserve the None-error_info invariant. -/
theorem applyOp_cpInv (m : Manager) (op : Op) (hm : CpInv m) :
    CpInv (applyOp m op) := by
  cases op with
  | init t i => exact fun t' g h => hm t' g h
  | invoke t e =>
    intro t' g h
    by_cases hmem : t ∈ m.graphs
    · have hstream := stream_run_states (stream_input m t e)
      simp only [applyOp, invoke_graph_update, if_pos hmem] at h
      cases hsr : stream_run (stream_input m t e) with
      | fail ps e' =>
        simp only [hsr] at h
        rcases persist_all_some ps m.checkpoints t t' g h with hmem2 | hold
        · exact (hstream.1 ps e' hsr g hmem2).trans
            (stream_input_error_info m t e hm)
        · exact hm t' g hold
      | done ps fin =>
        simp only [hsr] at h
        rcases persist_all_some ps m.checkpoints t t' g h with hmem2 | hold
        · exact (hstream.2 ps fin hsr g hmem2).trans
            (stream_input_error_info m t e hm)
        · exact hm t' g hold
    · simp only [applyOp, invoke_graph_update, if_neg hmem] at h
      exact hm t' g h

/-- Every reachable StateManager satisfies the invariant. -/
theorem applyOps_cpInv (ops : List Op) : CpInv (applyOps ops) := by
  suffices h : ∀ (l : List Op) (m : Manager), CpInv m → CpInv (l.foldl applyOp m) by
    refine h ops emptyManager (fun t g hg => ?_)
    simp [emptyManager] at hg
  intro l
  induction l with
  | nil => exact fun m hm => hm
  | cons op rest ih => exact fun m hm => ih (applyOp m op) (applyOp_cpInv m op hm)

/-- Claim C2, counterexample: on a registered task, an advance whose event
input is the non-dict value "x" makes `_process_request_node` raise
AttributeError at `initial_graph_input.get(...)`; the exception escapes
`invoke_graph_update` uncaught, and the checkpoint persisted by that
failing advance still has error_info = None — nothing was recorded. -/
theorem c2_counterexample :
    (invoke_graph_update (applyOps [Op.init "t1" (dictV [])]) "t1"
        (Val.vstr "x")).2 = Except.error PyErr.attributeError
    ∧ ((applyOps [Op.init "t1" (dictV []),
          Op.invoke "t1" (Val.vstr "x")]).checkpoints "t1").map
        (fun g => g.task_state.error_info) = some none :=
  ⟨rfl, rfl⟩

/-- Claim C2 (amended): `invoke_graph_update` does not catch node
exceptions — an exception raised inside a node propagates to the caller
(witnessed by a concrete non-dict event input), and no engine operation
ever writes TaskState.error_info: every checkpoint reachable by any
operation sequence still has error_info = None. -/
theorem c2_no_error_capture :
    (∀ (ops : List Op) (tid : String) (g : GraphState),
       (applyOps ops).checkpoints tid = some g →
       g.task_state.error_info = none)
    ∧ (invoke_graph_update (applyOps [Op.init "t1" (dictV [])]) "t1"
        (Val.vstr "x")).2 = Except.error PyErr.attributeError :=
  ⟨fun ops tid g h => applyOps_cpInv ops tid g h, rfl⟩

/-- A placeholder graph state for total extraction of checkpoints. -/
def gsFallback : GraphState :=
  { task_state := { task_id := "" }, input_data := Val.vnone }

/-- Witness for c2_no_error_capture at a concrete operation sequence. -/
theorem c2_witness :
    ((((applyOps [Op.init "t1" (dictV []), Op.invoke "t1" Val.vnone]).checkpoints
        "t1").getD gsFallback).task_state.error_info = none) :=
  c2_no_error_capture.1 [Op.init "t1" (dictV []), Op.invoke "t1" Val.vnone]
    "t1"
    (((applyOps [Op.init "t1" (dictV []), Op.invoke "t1" Val.vnone]).checkpoints
        "t1").getD gsFallback) (by rfl)

/-- A completed stream always ends on the end_task state. -/
theorem stream_run_done_status (gs : GraphState) (ps : List GraphState)
    (fin : GraphState) (h : stream_run gs = .done ps fin) :
    fin.task_state.status = "completed"
    ∧ fin.task_state.current_step = "completed" := by
  unfold stream_run at h
  cases hpr : process_request_node (start_task_node gs) with
  | error e =>
    simp only [hpr] at h
    exact StreamOut.noConfusion h
  | ok g2 =>
    simp only [hpr] at h
    injection h with h1 h2
    subst h2
    exact ⟨rfl, rfl⟩

/-- Claim C8, counterexample: after init and one successful advance the
persisted status is "completed"; one more advance — re-entering start_task
and then raising in process_request — leaves the same task persisted with
status "in_progress": a terminal task moved back to in_progress. -/
theorem c8_counterexample :
    ((applyOps [Op.init "t1" (dictV []),
        Op.invoke "t1" Val.vnone]).checkpoints "t1").map
        (fun g => g.task_state.status) = some "completed"
    ∧ ((applyOps [Op.init "t1" (dictV []), Op.invoke "t1" Val.vnone,
        Op.invoke "t1" (Val.vstr "x")]).checkpoints "t1").map
        (fun g => g.task_state.status) = some "in_progress"
    ∧ ("in_progress" : String) ≠ "completed" :=
  ⟨rfl, rfl, by decide⟩

/-- Claim C8 (amended): an advance that completes without an exception
always returns (and persists) status "completed" with current_step
"completed" — but statuses are not forward-only: each advance re-enters
start_task, and an advance that raises mid-run leaves a previously
completed task persisted with status "in_progress". -/
theorem c8_advance_terminal :
    (∀ (m : Manager) (tid : String) (ev : Val) (ts : ManagedTaskState),
       (invoke_graph_update m tid ev).2 = Except.ok (some ts) →
       ts.status = "completed" ∧ ts.current_step = "completed")
    ∧ ((applyOps [Op.init "t1" (dictV []), Op.invoke "t1" Val.vnone,
        Op.invoke "t1" (Val.vstr "x")]).checkpoints "t1").map
        (fun g => g.task_state.status) = some "in_progress" := by
  constructor
  · intro m tid ev ts h
    unfold invoke_graph_update at h
    by_cases hmem : tid ∈ m.graphs
    · rw [if_pos hmem] at h
      cases hsr : stream_run (stream_input m tid ev) with
      | fail ps e =>
        simp only [hsr] at h
        exact Except.noConfusion h
      | done ps fin =>
        simp only [hsr] at h
        injection h with h1
        injection h1 with h2
        subst h2
        exact stream_run_done_status _ _ _ hsr
    · rw [if_neg hmem] at h
      injection h with h1
      exact Option.noConfusion h1
  · rfl

/-- Total extraction of the returned task state from an advance result. -/
def okStateOr (x : Except PyErr (Option ManagedTaskState))
    (d : ManagedTaskState) : ManagedTaskState :=
  match x with
  | .ok (some t) => t
  | _ => d

/-- Witness for c8_advance_terminal at a concrete advance. -/
theorem c8_witness :
    (okStateOr (invoke_graph_update (applyOps [Op.init "t1" (dictV [])])
        "t1" Val.vnone).2 { task_id := "f" }).status = "completed"
    ∧ (okStateOr (invoke_graph_update (applyOps [Op.init "t1" (dictV [])])
        "t1" Val.vnone).2 { task_id := "f" }).current_step = "completed" :=
  c8_advance_terminal.1 (applyOps [Op.init "t1" (dictV [])]) "t1" Val.vnone
    (okStateOr (invoke_graph_update (applyOps [Op.init "t1" (dictV [])])
        "t1" Val.vnone).2 { task_id := "f" }) (by rfl)

/-!
Claim C7
-/

/-- A selected assistant is one of the registered agents. -/
theorem find_suitable_mem {reg : List (String × AgentProfile)}
    {rq cap aid : String} (h : find_suitable reg rq cap = some aid) :
    ∃ p, (aid, p) ∈ reg := by
  induction reg with
  | nil => exact absurd h (by simp [find_suitable])
  | cons x rest ih =>
    obtain ⟨a, p⟩ := x
    simp only [find_suitable] at h
    split at h
    · obtain ⟨q, hq⟩ := ih h
      exact ⟨q, List.mem_cons_of_mem _ hq⟩
    · split at h
      · injection h with h1
        subst h1
        exact ⟨p, List.mem_cons_self _ _⟩
      · obtain ⟨q, hq⟩ := ih h
        exact ⟨q, List.mem_cons_of_mem _ hq⟩

/-- A key that appears in the list is found. -/
theorem assocFind_isSome_of_mem {A : Type} {l : List (String × A)} {k : String}
    {p : A} (h : (k, p) ∈ l) : (assocFind l k).isSome := by
  induction l with
  | nil => simp at h
  | cons x rest ih =>
    obtain ⟨k1, v1⟩ := x
    rcases List.mem_cons.mp h with heq | hmem
    · cases heq
      simp [assocFind]
    · simp only [assocFind]
      by_cases hk : k1 = k
      · simp [hk]
      · rw [if_neg hk]
        exact ih hmem

/-- Looking up the updated key sees the update. -/
theorem assocFind_update_self {A : Type} (l : List (String × A)) (k : String)
    (f : A → A) : assocFind (assocUpdate l k f) k = (assocFind l k).map f := by
  induction l with
  | nil => rfl
  | cons x rest ih =>
    obtain ⟨k1, v1⟩ := x
    simp only [assocUpdate]
    by_cases hk : k1 = k
    · rw [if_pos hk]
      simp [assocFind, hk]
    · rw [if_neg hk]
      simp only [assocFind]
      rw [if_neg hk, if_neg hk]
      exact ih

/-- Looking up the key just set returns the stored value. -/
theorem assocSetS_find_self {A : Type} (l : List (String × A)) (k : String)
    (v : A) : assocFind (assocSetS l k v) k = some v := by
  induction l with
  | nil => simp [assocSetS, assocFind]
  | cons x rest ih =>
    obtain ⟨k1, v1⟩ := x
    simp only [assocSetS]
    by_cases hk : k1 = k
    · rw [if_pos hk]
      simp [assocFind, hk]
    · rw [if_neg hk]
      simp only [assocFind]
      rw [if_neg hk]
      exact ih

/-- The TaskAssistanceRequest stored by a successful request_assistance. -/
def mkAssistReq (rq tid cap : String) (d : Val) (now : Nat) (aid : String) :
    TaskAssistanceRequest :=
  { request_id := "assist_" ++ tid ++ "_" ++ toString now,
    requesting_agent_id := rq,
    original_task_id := tid,
    required_capability := cap,
    task_details := d,
    status := "dispatched_to_mcp",
    assigned_assisting_agent_id := some aid }

/-- The state and return value of a successful request_assistance that
selected `aid`. -/
def assistResult (c : CollabState) (rq tid cap : String) (d : Val)
    (now rnd : Nat) (aid : String) : CollabState × Option String :=
  let rid := "assist_" ++ tid ++ "_" ++ toString now
  let newPending := assocSetS c.pending_assistance_requests rid
    (mkAssistReq rq tid cap d now aid)
  (update_agent_status { c with pending_assistance_requests := newPending }
    aid "processing_task" (some ("mcp_subtask_" ++ toString rnd)), some rid)

/-- Claim C7: with the requester registered and no agent using the empty
id, request_assistance returns None exactly when the selection loop (first
agent in registration order, excluding the requester, with the capability
and status idle) finds nobody; when it finds `aid`, the call returns the
request id, marks `aid` processing_task, and stores a
TaskAssistanceRequest assigned to `aid`. -/
theorem c7_request_assistance (c : CollabState)
    (rq tid cap : String) (d : Val) (now rnd : Nat)
    (hreg : (assocFind c.registered_agents rq).isSome)
    (hids : ∀ pr ∈ c.registered_agents, pr.1 ≠ "") :
    (find_suitable c.registered_agents rq cap = none →
       (request_assistance c rq tid cap d now rnd).2 = none)
    ∧ (∀ aid, find_suitable c.registered_agents rq cap = some aid →
       (request_assistance c rq tid cap d now rnd).2
           = some ("assist_" ++ tid ++ "_" ++ toString now)
       ∧ agent_status (request_assistance c rq tid cap d now rnd).1 aid
           = some "processing_task"
       ∧ ∃ r, assocFind
             (request_assistance c rq tid cap d now rnd).1.pending_assistance_requests
             ("assist_" ++ tid ++ "_" ++ toString now) = some r
           ∧ r.assigned_assisting_agent_id = some aid
           ∧ r.status = "dispatched_to_mcp"
           ∧ r.required_capability = cap
           ∧ r.requesting_agent_id = rq) := by
  have hne : ¬ assocFind c.registered_agents rq = none := by
    intro hx
    rw [hx] at hreg
    simp at hreg
  constructor
  · intro hnone
    unfold request_assistance
    rw [if_neg hne, hnone]
  · intro aid hfind
    obtain ⟨p, hp⟩ := find_suitable_mem hfind
    have haid : aid ≠ "" := hids (aid, p) hp
    have hres : request_assistance c rq tid cap d now rnd
        = assistResult c rq tid cap d now rnd aid := by
      unfold request_assistance
      rw [if_neg hne]
      split
      · rename_i hnone'
        rw [hfind] at hnone'
        exact Option.noConfusion hnone'
      · rename_i aid' hsome
        rw [hfind] at hsome
        injection hsome with he
        subst he
        rw [if_neg haid]
        rfl
    rw [hres]
    refine ⟨rfl, ?_, ?_⟩
    · simp only [assistResult, agent_status, update_agent_status]
      rw [assocFind_update_self]
      obtain ⟨q, hq⟩ := Option.isSome_iff_exists.mp
        (assocFind_isSome_of_mem hp)
      rw [hq]
      rfl
    · exact ⟨_, assocSetS_find_self _ _ _, rfl, rfl, rfl, rfl⟩

/-- The assistance-matching example: agents A (idle, capability x),
B (processing_task, capability x), C (idle, capability y), and the
requesting agent D, registered in the order D, A, B, C. -/
def cABC : CollabState :=
  update_agent_status
    (register_agent
      (register_agent
        (register_agent (register_agent emptyCollab "D" []) "A" ["x"])
        "B" ["x"])
      "C" ["y"])
    "B" "processing_task" none

/-- Witness for c7_request_assistance: on the A/B/C example a request by D
for capability x selects A (never B or C), returns the request id, and
marks A processing_task. -/
theorem c7_witness :
    find_suitable cABC.registered_agents "D" "x" = some "A"
    ∧ (request_assistance cABC "D" "t9" "x" (dictV []) 5 7).2 = some "assist_t9_5"
    ∧ agent_status (request_assistance cABC "D" "t9" "x" (dictV []) 5 7).1 "A"
        = some "processing_task" := by
  have h := (c7_request_assistance cABC "D" "t9" "x" (dictV []) 5 7
    (by decide) (by decide)).2 "A" (by decide)
  exact ⟨by decide, h.1.trans (by decide), h.2.1⟩
